import Mathlib

/-!
Verification of the liquium repository against its natural-language
specification.  Each namespace embeds one component of the source:

* `Vault`   — `RemoteVault.sol` (src/unnamed/part_000): the deposit
  lifecycle state machine, withdrawal payout computation.
* `Nitro`   — `NitroliteService.ts`: channel state and append-only history.
* `CNAuth`  — `ClearNodeService.ts` authentication flow (connect and the
  auth_request → auth_challenge → auth_verify handshake).
* `CNConn`  — `ClearNodeService.ts` disconnect / reconnect machinery.
* `CNReq`   — `ClearNodeService.ts` request correlation map.
* `Signer`  — `MessageSigner.ts` request signing.

Addresses, hashes and signatures are modelled as natural numbers; the
address 0 plays the role of `address(0)`.
-/

namespace Vault

/-- `enum DepositStatus` of `RemoteVault.sol`.  `pending` is the enum's
first member, hence the value a zero-initialised storage slot holds. -/
inductive DepositStatus
  | pending
  | sent
  | confirmed
  | settled
  | withdrawn
deriving DecidableEq, Repr

/-- `struct RemoteDeposit` of `RemoteVault.sol`. -/
structure RemoteDeposit where
  positionId : Nat
  depositor : Nat
  token : Nat
  amount : Nat
  timestamp : Nat
  hubPositionId : Nat
  status : DepositStatus
deriving DecidableEq, Repr

/-- The zero-initialised `RemoteDeposit` struct a Solidity mapping returns
for a key that was never written. -/
def emptyDeposit : RemoteDeposit :=
  { positionId := 0, depositor := 0, token := 0, amount := 0,
    timestamp := 0, hubPositionId := 0, status := .pending }

/-- The custom errors of `RemoteVault.sol` plus the two `require` reverts
(`"Not authorized"`, the `onlyOwner` modifier and the two setter
`require`s). -/
inductive VaultError
  | invalidAmount
  | invalidToken
  | invalidStatus
  | positionNotFound
  | unauthorizedWithdrawal
  | hubNotConfigured
  | notAuthorized
  | notOwner
  | feeTooHigh
  | invalidRecipient
deriving DecidableEq, Repr

/-- The events `RemoteVault.sol` emits, plus the ERC20 transfers it
performs (a transfer is observable on-chain exactly like an event). -/
inductive VaultEvent
  | remoteDeposited (positionId depositor token amount : Nat)
  | depositSentToHub (positionId : Nat)
  | depositConfirmed (positionId hubPositionId : Nat)
  | settlementReceived (positionId principal yieldAmount : Nat)
  | remoteWithdrawn (positionId recipient amount : Nat)
  | tokenTransfer (token recipient amount : Nat)
deriving DecidableEq, Repr

/-- The storage of a deployed `RemoteVault` together with the part of the
`DealPosition` NFT contract it interacts with.  `DealPosition.sol` is not
among the staged source files; its `mint`/`burn`/`ownerOf` are modelled
from the spec (standard ownership token: mint assigns the next fresh id to
the recipient, burn retires it, ownerOf reports the holder). -/
structure VaultState where
  deposits : Nat → RemoteDeposit
  nftOwner : Nat → Option Nat
  nftNextId : Nat
  protocolFeeBps : Nat
  feeRecipient : Nat
  hubVaultAddress : Nat
  messenger : Nat
  owner : Nat
  nowTime : Nat
  events : List VaultEvent

/-- The state the constructor establishes: `protocolFeeBps = 100`, no hub,
no messenger, empty storage. -/
def initState (owner feeRecipient nowTime : Nat) : VaultState :=
  { deposits := fun _ => emptyDeposit
    nftOwner := fun _ => none
    nftNextId := 1
    protocolFeeBps := 100
    feeRecipient := feeRecipient
    hubVaultAddress := 0
    messenger := 0
    owner := owner
    nowTime := nowTime
    events := [] }

/-- `deposits[k] = d`. -/
def setDeposit (s : VaultState) (k : Nat) (d : RemoteDeposit) : VaultState :=
  { s with deposits := fun i => if i = k then d else s.deposits i }

def emitEv (s : VaultState) (e : VaultEvent) : VaultState :=
  { s with events := s.events ++ [e] }

/-- `_sendToHub` (internal, no access control): requires `Pending`, then a
configured hub, sets the status to `Sent` and emits. -/
def sendToHubCore (s : VaultState) (positionId : Nat) :
    Except VaultError VaultState :=
  let dep := s.deposits positionId
  if dep.status ≠ DepositStatus.pending then .error .invalidStatus
  else if s.hubVaultAddress = 0 then .error .hubNotConfigured
  else .ok (emitEv (setDeposit s positionId { dep with status := .sent })
    (.depositSentToHub positionId))

/-- `deposit(token, amount)`: zero-address token and zero amount are
rejected before any effect; otherwise the tokens are pulled in, a position
NFT is minted, the `RemoteDeposit` record is written with status
`Pending`, and — when both hub and messenger are configured — the deposit
is auto-sent to the hub. -/
def deposit (s : VaultState) (caller token amount : Nat) :
    Except VaultError (VaultState × Nat) :=
  if token = 0 then .error .invalidToken
  else if amount = 0 then .error .invalidAmount
  else
    let s1 := emitEv s (.tokenTransfer token 0 amount)
    let positionId := s1.nftNextId
    let s2 := { s1 with
      nftOwner := fun i => if i = positionId then some caller else s1.nftOwner i
      nftNextId := s1.nftNextId + 1 }
    let d : RemoteDeposit :=
      { positionId := positionId, depositor := caller, token := token,
        amount := amount, timestamp := s2.nowTime, hubPositionId := 0,
        status := .pending }
    let s3 := emitEv (setDeposit s2 positionId d)
      (.remoteDeposited positionId caller token amount)
    if s3.hubVaultAddress ≠ 0 ∧ s3.messenger ≠ 0 then
      (sendToHubCore s3 positionId).map (fun s4 => (s4, positionId))
    else .ok (s3, positionId)

/-- `sendToHub(positionId)` (external, `onlyOwner`). -/
def sendToHub (s : VaultState) (caller positionId : Nat) :
    Except VaultError VaultState :=
  if caller ≠ s.owner then .error .notOwner
  else sendToHubCore s positionId

/-- `confirmDeposit(positionId, hubPositionId)`: messenger or owner only;
requires `Sent`; records the hub position id and moves to `Confirmed`. -/
def confirmDeposit (s : VaultState) (caller positionId hubPositionId : Nat) :
    Except VaultError VaultState :=
  if ¬(caller = s.messenger ∨ caller = s.owner) then .error .notAuthorized
  else
    let dep := s.deposits positionId
    if dep.status ≠ DepositStatus.sent then .error .invalidStatus
    else .ok (emitEv
      (setDeposit s positionId
        { dep with hubPositionId := hubPositionId, status := .confirmed })
      (.depositConfirmed positionId hubPositionId))

/-- `receiveSettlement(positionId, principal, yieldAmount)`: messenger or
owner only; requires `Confirmed`; moves to `Settled`.  Note that the
settlement amounts are only emitted in the event — nothing of
`principal`/`yieldAmount` is written to the deposit record. -/
def receiveSettlement (s : VaultState)
    (caller positionId principal yieldAmount : Nat) :
    Except VaultError VaultState :=
  if ¬(caller = s.messenger ∨ caller = s.owner) then .error .notAuthorized
  else
    let dep := s.deposits positionId
    if dep.status ≠ DepositStatus.confirmed then .error .invalidStatus
    else .ok (emitEv (setDeposit s positionId { dep with status := .settled })
      (.settlementReceived positionId principal yieldAmount))

/-- `withdraw(positionId)`: caller must hold the position NFT; requires
`Settled`; computes the payout exactly as the source does — `principal`
is the recorded deposit amount and `yieldAmount` is the literal `0` the
source hardcodes (its comment: "TODO: Get from settlement message") —
moves to `Withdrawn`, burns the NFT and transfers.  Returns the state
together with `(totalAmount, fee)`. -/
def withdraw (s : VaultState) (caller positionId : Nat) :
    Except VaultError (VaultState × Nat × Nat) :=
  if s.nftOwner positionId ≠ some caller then .error .unauthorizedWithdrawal
  else
    let dep := s.deposits positionId
    if dep.status ≠ DepositStatus.settled then .error .invalidStatus
    else if dep.positionId = 0 then .error .positionNotFound
    else
      let principal := dep.amount
      let yieldAmount := 0
      let fee := yieldAmount * s.protocolFeeBps / 10000
      let netYield := yieldAmount - fee
      let totalAmount := principal + netYield
      let s1 := setDeposit s positionId { dep with status := .withdrawn }
      let s2 := { s1 with
        nftOwner := fun i => if i = positionId then none else s1.nftOwner i }
      let s3 := emitEv s2 (.tokenTransfer dep.token caller totalAmount)
      let s4 := if fee > 0 then
        emitEv s3 (.tokenTransfer dep.token s.feeRecipient fee) else s3
      .ok (emitEv s4 (.remoteWithdrawn positionId caller totalAmount),
        totalAmount, fee)

/-- `emergencyWithdraw(positionId)`: caller must hold the NFT; requires
`Pending`; moves directly to `Withdrawn`, burns the NFT and returns the
full original amount. -/
def emergencyWithdraw (s : VaultState) (caller positionId : Nat) :
    Except VaultError (VaultState × Nat) :=
  if s.nftOwner positionId ≠ some caller then .error .unauthorizedWithdrawal
  else
    let dep := s.deposits positionId
    if dep.status ≠ DepositStatus.pending then .error .invalidStatus
    else
      let amount := dep.amount
      let s1 := setDeposit s positionId { dep with status := .withdrawn }
      let s2 := { s1 with
        nftOwner := fun i => if i = positionId then none else s1.nftOwner i }
      let s3 := emitEv s2 (.tokenTransfer dep.token caller amount)
      .ok (emitEv s3 (.remoteWithdrawn positionId caller amount), amount)

/-- `setHubVault` (`onlyOwner`). -/
def setHubVault (s : VaultState) (caller addr : Nat) :
    Except VaultError VaultState :=
  if caller ≠ s.owner then .error .notOwner
  else .ok { s with hubVaultAddress := addr }

/-- `setMessenger` (`onlyOwner`). -/
def setMessenger (s : VaultState) (caller addr : Nat) :
    Except VaultError VaultState :=
  if caller ≠ s.owner then .error .notOwner
  else .ok { s with messenger := addr }

/-- `setProtocolFee` (`onlyOwner`, `newFeeBps ≤ 1000`). -/
def setProtocolFee (s : VaultState) (caller bps : Nat) :
    Except VaultError VaultState :=
  if caller ≠ s.owner then .error .notOwner
  else if ¬(bps ≤ 1000) then .error .feeTooHigh
  else .ok { s with protocolFeeBps := bps }

/-- `setFeeRecipient` (`onlyOwner`, nonzero). -/
def setFeeRecipient (s : VaultState) (caller addr : Nat) :
    Except VaultError VaultState :=
  if caller ≠ s.owner then .error .notOwner
  else if addr = 0 then .error .invalidRecipient
  else .ok { s with feeRecipient := addr }

/-- One external call to the contract. -/
inductive VaultOp
  | deposit (caller token amount : Nat)
  | sendToHub (caller positionId : Nat)
  | confirmDeposit (caller positionId hubPositionId : Nat)
  | receiveSettlement (caller positionId principal yieldAmount : Nat)
  | withdraw (caller positionId : Nat)
  | emergencyWithdraw (caller positionId : Nat)
  | setHubVault (caller addr : Nat)
  | setMessenger (caller addr : Nat)
  | setProtocolFee (caller bps : Nat)
  | setFeeRecipient (caller addr : Nat)

/-- State transition of one external call (return data dropped).  A revert
produces `.error` and, as in the EVM, leaves no trace of the call. -/
def step (s : VaultState) : VaultOp → Except VaultError VaultState
  | .deposit caller token amount => (deposit s caller token amount).map (·.1)
  | .sendToHub caller pid => sendToHub s caller pid
  | .confirmDeposit caller pid hubPid => confirmDeposit s caller pid hubPid
  | .receiveSettlement caller pid pr y => receiveSettlement s caller pid pr y
  | .withdraw caller pid => (withdraw s caller pid).map (·.1)
  | .emergencyWithdraw caller pid => (emergencyWithdraw s caller pid).map (·.1)
  | .setHubVault caller addr => setHubVault s caller addr
  | .setMessenger caller addr => setMessenger s caller addr
  | .setProtocolFee caller bps => setProtocolFee s caller bps
  | .setFeeRecipient caller addr => setFeeRecipient s caller addr

/-- States a deployed contract can be in: the constructor's state, plus
anything a sequence of successful external calls produces. -/
inductive Reachable : VaultState → Prop
  | init (owner feeRecipient nowTime : Nat) :
      Reachable (initState owner feeRecipient nowTime)
  | step {s s2 : VaultState} (op : VaultOp) :
      Reachable s → step s op = .ok s2 → Reachable s2

/-- The transitions the spec permits: stay put, walk the chain
PENDING→SENT→CONFIRMED→SETTLED→WITHDRAWN, or the emergency bypass
PENDING→WITHDRAWN. -/
def forwardEdge : DepositStatus → DepositStatus → Bool
  | a, b => a = b ∨
      (a = .pending ∧ b = .sent) ∨
      (a = .sent ∧ b = .confirmed) ∨
      (a = .confirmed ∧ b = .settled) ∨
      (a = .settled ∧ b = .withdrawn) ∨
      (a = .pending ∧ b = .withdrawn)

/-- Key-boundedness: every storage key at or beyond the NFT counter is
still zero-initialised.  Holds in every reachable state and guarantees a
fresh mint never clobbers an existing deposit record. -/
def KeysFresh (s : VaultState) : Prop :=
  ∀ pid, s.nftNextId ≤ pid →
    (s.deposits pid).positionId = 0 ∧ s.nftOwner pid = none

/-- The conclusion of the deposit-lifecycle claim, for one successful step
`s → s2`: (1) the status of every existing deposit record (a record
`deposit` wrote, marked by its nonzero `positionId` field — a zeroed slot
is not a deposit) moves only along the permitted edges; and (2)–(6) each
transition function checks strict equality against its required source
status and rejects any other status of an (authorized) call with
`InvalidStatus`. -/
def ForwardOnlyConcl (s s2 : VaultState) : Prop :=
  (∀ pid, (s.deposits pid).positionId ≠ 0 →
    forwardEdge (s.deposits pid).status (s2.deposits pid).status = true) ∧
  (∀ (t : VaultState) (pid : Nat), (t.deposits pid).status ≠ .pending →
    sendToHubCore t pid = .error .invalidStatus) ∧
  (∀ (t : VaultState) (caller pid hubPid : Nat),
    (caller = t.messenger ∨ caller = t.owner) →
    (t.deposits pid).status ≠ .sent →
    confirmDeposit t caller pid hubPid = .error .invalidStatus) ∧
  (∀ (t : VaultState) (caller pid principal yieldAmount : Nat),
    (caller = t.messenger ∨ caller = t.owner) →
    (t.deposits pid).status ≠ .confirmed →
    receiveSettlement t caller pid principal yieldAmount
      = .error .invalidStatus) ∧
  (∀ (t : VaultState) (caller pid : Nat), t.nftOwner pid = some caller →
    (t.deposits pid).status ≠ .settled →
    withdraw t caller pid = .error .invalidStatus) ∧
  (∀ (t : VaultState) (caller pid : Nat), t.nftOwner pid = some caller →
    (t.deposits pid).status ≠ .pending →
    emergencyWithdraw t caller pid = .error .invalidStatus)

end Vault

namespace Nitro

/-- The `intent` column of `NitroliteService.ts`: the string literals
`'INITIALIZE'`, `'OPERATE'`, `'FINALIZE'`. -/
inductive Intent
  | start
  | operate
  | finalize
deriving DecidableEq, Repr

/-- One allocation JSON blob `{destination, amount}` as stored by
`NitroliteService.ts` (the amount is serialised from a bigint). -/
structure Alloc where
  destination : Nat
  amount : Int
deriving DecidableEq, Repr

/-- One row of the `channelState` table, for a fixed `channelId`.
`stateHash` holds the session id on creation and is not touched by
updates; `stateData` holds the encoded deal id. -/
structure ChannelState where
  version : Nat
  stateHash : Nat
  intent : Intent
  allocation0 : Alloc
  allocation1 : Alloc
  participants : List Nat
  stateData : Nat
deriving DecidableEq, Repr

/-- One row of the `stateHistory` table (its `stateHash` column holds the
session id for version 1 and the stringified version afterwards). -/
structure HistoryEntry where
  version : Nat
  stateHash : Nat
  intent : Intent
  allocation0 : Alloc
  allocation1 : Alloc
  stateData : Nat
deriving DecidableEq, Repr

/-- The database rows for one channel id: the unique `channelState` row
(if created) and its `stateHistory` rows in insertion order. -/
structure ChannelDb where
  channel : Option ChannelState
  history : List HistoryEntry
deriving DecidableEq, Repr

def emptyDb : ChannelDb := { channel := none, history := [] }

inductive NitroErr
  | channelNotFound
  | channelExists
deriving DecidableEq, Repr

/-- `createChannelForDeal`'s database effect for this channel id: insert
the `channelState` row at version 1, intent INITIALIZE, allocations
`(dealer, 0)` and `(lp, lpAmount)`, and insert the matching first
`stateHistory` row.  A second create on the same id violates the unique
key and throws. -/
def createChannelForDeal (db : ChannelDb)
    (sessionId dealId dealer lp : Nat) (lpAmount : Int) :
    Except NitroErr ChannelDb :=
  match db.channel with
  | some _ => .error .channelExists
  | none =>
    let st : ChannelState :=
      { version := 1, stateHash := sessionId, intent := .start,
        allocation0 := { destination := dealer, amount := 0 },
        allocation1 := { destination := lp, amount := lpAmount },
        participants := [dealer, lp], stateData := dealId }
    let h : HistoryEntry :=
      { version := 1, stateHash := sessionId, intent := .start,
        allocation0 := { destination := dealer, amount := 0 },
        allocation1 := { destination := lp, amount := lpAmount },
        stateData := dealId }
    .ok { channel := some st, history := db.history ++ [h] }

/-- `updateChannelState(channelId, newAmount0, newAmount1, stateData?)`:
requires the row to exist, bumps the version by exactly 1, sets intent
OPERATE, overwrites the allocations, and appends a `stateHistory` row of
the new version.  There is no check of the current intent. -/
def updateChannelState (db : ChannelDb)
    (newAmount0 newAmount1 : Int) (stateData : Option Nat) :
    Except NitroErr ChannelDb :=
  match db.channel with
  | none => .error .channelNotFound
  | some cur =>
    let p0 := cur.participants.getD 0 0
    let p1 := cur.participants.getD 1 0
    let newVersion := cur.version + 1
    let sd := stateData.getD cur.stateData
    let st : ChannelState :=
      { version := newVersion, stateHash := cur.stateHash, intent := .operate,
        allocation0 := { destination := p0, amount := newAmount0 },
        allocation1 := { destination := p1, amount := newAmount1 },
        participants := cur.participants, stateData := sd }
    let h : HistoryEntry :=
      { version := newVersion, stateHash := newVersion, intent := .operate,
        allocation0 := { destination := p0, amount := newAmount0 },
        allocation1 := { destination := p1, amount := newAmount1 },
        stateData := sd }
    .ok { channel := some st, history := db.history ++ [h] }

/-- `finalizeChannel(channelId, finalAmount0, finalAmount1)`: requires the
row to exist, bumps the version by 1 (`version: { increment: 1 }`), sets
intent FINALIZE and the final allocations.  It writes no `stateHistory`
row and checks no current intent. -/
def finalizeChannel (db : ChannelDb) (finalAmount0 finalAmount1 : Int) :
    Except NitroErr ChannelDb :=
  match db.channel with
  | none => .error .channelNotFound
  | some cur =>
    let p0 := cur.participants.getD 0 0
    let p1 := cur.participants.getD 1 0
    let st : ChannelState :=
      { version := cur.version + 1, stateHash := cur.stateHash,
        intent := .finalize,
        allocation0 := { destination := p0, amount := finalAmount0 },
        allocation1 := { destination := p1, amount := finalAmount1 },
        participants := cur.participants, stateData := cur.stateData }
    .ok { channel := some st, history := db.history }

/-- One service call touching this channel id. -/
inductive NitroOp
  | create (sessionId dealId dealer lp : Nat) (lpAmount : Int)
  | operate (a0 a1 : Int) (sd : Option Nat)
  | finalize (a0 a1 : Int)
deriving DecidableEq, Repr

def nitroStep (db : ChannelDb) : NitroOp → Except NitroErr ChannelDb
  | .create sessionId dealId dealer lp lpAmount =>
      createChannelForDeal db sessionId dealId dealer lp lpAmount
  | .operate a0 a1 sd => updateChannelState db a0 a1 sd
  | .finalize a0 a1 => finalizeChannel db a0 a1

/-- A call that throws leaves the database unchanged. -/
def applyOp (db : ChannelDb) (op : NitroOp) : ChannelDb :=
  match nitroStep db op with
  | .ok db2 => db2
  | .error _ => db

def runOps (db : ChannelDb) : List NitroOp → ChannelDb
  | [] => db
  | op :: ops => runOps (applyOp db op) ops

def NitroOp.isFinalize : NitroOp → Bool
  | .finalize _ _ => true
  | _ => false

/-- The history/version invariant: history versions are exactly
`1, 2, …, length`, and when the `channelState` row exists its current
version equals the history length (hence the last entry's version) and
at least one history row exists. -/
def GoodDb (db : ChannelDb) : Prop :=
  db.history.map (fun h => h.version) = List.range' 1 db.history.length ∧
  (match db.channel with
   | none => db.history = []
   | some c => c.version = db.history.length ∧ db.history ≠ [])

/-- The claimed invariant, as observable facts: `history[i].version = i+1`
for every index, and the current version equals the last history entry's
version. -/
def HistoryConcl (db : ChannelDb) : Prop :=
  (∀ i (h : i < db.history.length), (db.history.get ⟨i, h⟩).version = i + 1) ∧
  (∀ c, db.channel = some c →
    db.history.getLast?.map (fun h => h.version) = some c.version)

/-- What operate and finalize actually do to a session whose current
state is `cur`: both succeed — `updateChannelState` bumps the version,
sets intent OPERATE, overwrites the allocations and appends a history
row; `finalizeChannel` bumps the version again without touching the
history. -/
def NotTerminalConcl (db : ChannelDb) (cur : ChannelState)
    (a0 a1 : Int) (sd : Option Nat) : Prop :=
  updateChannelState db a0 a1 sd = .ok
    { channel := some
        { version := cur.version + 1, stateHash := cur.stateHash,
          intent := .operate,
          allocation0 := { destination := cur.participants.getD 0 0, amount := a0 },
          allocation1 := { destination := cur.participants.getD 1 0, amount := a1 },
          participants := cur.participants, stateData := sd.getD cur.stateData },
      history := db.history ++
        [{ version := cur.version + 1, stateHash := cur.version + 1,
           intent := .operate,
           allocation0 := { destination := cur.participants.getD 0 0, amount := a0 },
           allocation1 := { destination := cur.participants.getD 1 0, amount := a1 },
           stateData := sd.getD cur.stateData }] } ∧
  finalizeChannel db a0 a1 = .ok
    { channel := some
        { version := cur.version + 1, stateHash := cur.stateHash,
          intent := .finalize,
          allocation0 := { destination := cur.participants.getD 0 0, amount := a0 },
          allocation1 := { destination := cur.participants.getD 1 0, amount := a1 },
          participants := cur.participants, stateData := cur.stateData },
      history := db.history }

/-- The current state of `sampleFinalized`. -/
def sampleCur : ChannelState :=
  { version := 2, stateHash := 500, intent := .finalize,
    allocation0 := { destination := 21, amount := 300 },
    allocation1 := { destination := 22, amount := 700 },
    participants := [21, 22], stateData := 7 }

/-- The database after `createChannelForDeal` (session 500, deal 7,
dealer 21, lp 22, amount 1000) followed by `finalizeChannel 300 700`. -/
def sampleFinalized : ChannelDb :=
  { channel := some sampleCur
    history := [{ version := 1
                  stateHash := 500
                  intent := .start
                  allocation0 := { destination := 21, amount := 0 }
                  allocation1 := { destination := 22, amount := 1000 }
                  stateData := 7 }] }

end Nitro

namespace CNAuth

/-- `ConnectionStatus` of `types.ts` (the `Error` member is unused by the
paths modelled here). -/
inductive CStatus
  | disconnected
  | connecting
  | connected
  | authenticating
  | authenticated
deriving DecidableEq, Repr

/-- Frames the client sends during the handshake (challenges and tokens
abstracted to numbers). -/
inductive SentMsg
  | authRequest
  | authVerify (challenge : Nat)
deriving DecidableEq, Repr

/-- Events `ClearNodeService` emits during connect/auth. -/
inductive AuthEmit
  | connecting
  | connected
  | authenticated (jwt : Option Nat)
deriving DecidableEq, Repr

/-- The client state relevant to one `connect()` call.  `connectOutcome`
records the promise `connect()` returned: `none` while pending,
`some true` once `resolve()` ran, `some false` once `reject` ran. -/
structure AuthState where
  connectionStatus : CStatus
  isAuthenticated : Bool
  jwtToken : Option Nat
  connectOutcome : Option Bool
  sent : List SentMsg
  emitted : List AuthEmit
deriving DecidableEq, Repr

/-- The synchronous part of `connect()` before any transport event:
status := Connecting, emit `connecting`, promise pending. -/
def connectStart : AuthState :=
  { connectionStatus := .connecting, isAuthenticated := false,
    jwtToken := none, connectOutcome := none, sent := [],
    emitted := [.connecting] }

/-- Transport / server events that drive the handshake. -/
inductive AuthEvent
  | wsOpen
  | authChallenge (challenge : Nat)
  | authVerifyRes (success : Bool) (jwt : Option Nat)
deriving DecidableEq, Repr

/-- One event as the source handles it.

* `wsOpen`: the `open` handler sets status Connected and emits, then
  `startAuthentication` sets status Authenticating and sends the signed
  `auth_request`; `startAuthentication` returns at that point, so the
  handler's `resolve()` runs — `connect()` resolves here, before any
  server reply.
* `authChallenge`: `handleAuthChallenge` signs and sends `auth_verify`.
* `authVerifyRes success`: `handleAuthSuccess`.  On `success` the client
  records the token, sets Authenticated and emits; otherwise it throws
  `new Error('Authentication failed')`, which `handleMessage`'s
  try/catch swallows (only a log line) — no state change and nothing is
  rejected. -/
def authStep (s : AuthState) : AuthEvent → AuthState
  | .wsOpen =>
      { s with
        connectionStatus := .authenticating
        emitted := s.emitted ++ [.connected]
        sent := s.sent ++ [.authRequest]
        connectOutcome := some true }
  | .authChallenge c =>
      { s with sent := s.sent ++ [.authVerify c] }
  | .authVerifyRes success jwt =>
      if success then
        { s with
          isAuthenticated := true
          connectionStatus := .authenticated
          jwtToken := jwt
          emitted := s.emitted ++ [.authenticated jwt] }
      else s

def authRun (s : AuthState) : List AuthEvent → AuthState
  | [] => s
  | e :: es => authRun (authStep s e) es

/-- Does the event carry a successful `auth_verify` response? -/
def AuthEvent.isSuccess : AuthEvent → Bool
  | .authVerifyRes success _ => success
  | _ => false

end CNAuth

namespace CNConn

/-- `CLEARNODE_CONFIG.maxReconnectAttempts`. -/
def maxReconnectAttempts : Nat := 5

/-- `CLEARNODE_CONFIG.reconnectInterval` (ms). -/
def reconnectInterval : Nat := 3000

/-- `CLEARNODE_CONFIG.reconnectBackoffMultiplier`. -/
def reconnectBackoffMultiplier : Nat := 2

/-- How a pending request's promise ended. -/
inductive Outcome
  | connectionClosed
  | result (payload : Nat)
deriving DecidableEq, Repr

/-- Events the service emits that this model tracks. -/
inductive ConnEmit
  | disconnected
  | reconnecting (attempt : Nat)
deriving DecidableEq, Repr

/-- Log lines (`logger.*`) the reconnect path writes. -/
inductive LogEntry
  | maxReconnectReached
  | reconnectScheduled (attempt delay : Nat)
deriving DecidableEq, Repr

/-- Connection-level state of `ClearNodeService`: the live socket flag,
the correlation map (request id ↦ caller tag), the reconnect counter, the
delays of reconnect timers that have been set, settled request promises,
emitted events and log lines. -/
structure ConnState where
  wsLive : Bool
  isAuthenticated : Bool
  pending : List (Nat × Nat)
  reconnectAttempts : Nat
  scheduled : List Nat
  settled : List (Nat × Outcome)
  emitted : List ConnEmit
  logs : List LogEntry
deriving DecidableEq, Repr

/-- `attemptReconnect()`: at or beyond the maximum it only logs and
returns — nothing is scheduled and nothing is emitted; below it, the
counter is bumped, the delay `reconnectInterval * multiplier ^ (attempts
- 1)` (with the already-bumped counter) is scheduled and `reconnecting`
is emitted. -/
def attemptReconnect (s : ConnState) : ConnState :=
  if s.reconnectAttempts ≥ maxReconnectAttempts then
    { s with logs := s.logs ++ [.maxReconnectReached] }
  else
    let attempts := s.reconnectAttempts + 1
    let delay := reconnectInterval * reconnectBackoffMultiplier ^ (attempts - 1)
    { s with
      reconnectAttempts := attempts
      scheduled := s.scheduled ++ [delay]
      logs := s.logs ++ [.reconnectScheduled attempts delay]
      emitted := s.emitted ++ [.reconnecting attempts] }

/-- The `close` handler registered in `connect()`: marks the client
disconnected and unauthenticated, emits `disconnected`, then calls
`attemptReconnect()` unconditionally — there is no flag distinguishing a
caller-initiated close. -/
def onClose (s : ConnState) : ConnState :=
  attemptReconnect
    { s with
      isAuthenticated := false
      emitted := s.emitted ++ [.disconnected] }

/-- `disconnect()`: when a socket exists, every pending request is
rejected with `Connection closed` and removed, then the socket is closed
and nulled; the authenticated flag is cleared.  (The transport will still
fire the `close` event, handled by `onClose`.) -/
def disconnect (s : ConnState) : ConnState :=
  if s.wsLive then
    { s with
      settled := s.settled ++ s.pending.map (fun p => (p.2, Outcome.connectionClosed))
      pending := []
      wsLive := false
      isAuthenticated := false }
  else { s with isAuthenticated := false }

/-- What `disconnect()` actually does: it settles every pending request
with `ConnectionClosed` and clears the map, but it does not suppress
reconnection — the transport `close` event that follows runs
`attemptReconnect`, which schedules a further attempt whenever fewer
than `maxReconnectAttempts` have been made. -/
def DisconnectConcl (s : ConnState) : Prop :=
  (disconnect s).pending = [] ∧
  (disconnect s).settled
    = s.settled ++ s.pending.map (fun p => (p.2, Outcome.connectionClosed)) ∧
  (disconnect s).wsLive = false ∧
  (s.reconnectAttempts < maxReconnectAttempts →
    (onClose (disconnect s)).scheduled = s.scheduled ++
      [reconnectInterval * reconnectBackoffMultiplier ^ s.reconnectAttempts])

/-- An authenticated client with one in-flight request and no prior
reconnect attempts. -/
def liveClient : ConnState :=
  { wsLive := true
    isAuthenticated := true
    pending := [(100, 1)]
    reconnectAttempts := 0
    scheduled := []
    settled := []
    emitted := []
    logs := [] }

/-- A client whose five reconnect attempts have all failed. -/
def exhaustedClient : ConnState :=
  { wsLive := false
    isAuthenticated := false
    pending := []
    reconnectAttempts := 5
    scheduled := [3000, 6000, 12000, 24000, 48000]
    settled := []
    emitted := [.reconnecting 1, .reconnecting 2, .reconnecting 3,
      .reconnecting 4, .reconnecting 5]
    logs := [] }

end CNConn

namespace CNReq

/-- The correlation map `requestMap` (request id ↦ caller tag standing
for the stored resolve/reject handler). -/
structure RMap where
  entries : List (Nat × Nat)
deriving DecidableEq, Repr

def emptyMap : RMap := { entries := [] }

/-- `Map.set`: replaces any entry under the same key. -/
def mapSet (m : RMap) (k v : Nat) : RMap :=
  { entries := (k, v) :: m.entries.filter (fun p => p.1 ≠ k) }

def mapGet (m : RMap) (k : Nat) : Option Nat :=
  (m.entries.find? (fun p => p.1 = k)).map (·.2)

def mapDelete (m : RMap) (k : Nat) : RMap :=
  { entries := m.entries.filter (fun p => p.1 ≠ k) }

/-- `sendRequest`'s id assignment and registration: the correlation id is
`Date.now()` — the wall clock at the call, passed here as `clock` — and
the handler is stored under it, silently replacing any entry with the
same id. -/
def sendRequest (clock tag : Nat) (m : RMap) : RMap × Nat :=
  (mapSet m clock tag, clock)

/-- An inbound `res` frame `[requestId, method, result, timestamp]`,
reduced to the correlation id and the payload. -/
structure Frame where
  requestId : Nat
  payload : Nat
deriving DecidableEq, Repr

/-- `handleMessage` on a `res` frame: a frame whose id has a pending
handler resolves that handler with the frame's payload and removes the
entry; any other frame changes nothing. -/
def dispatch (m : RMap) (f : Frame) : RMap × List (Nat × Nat) :=
  match mapGet m f.requestId with
  | some tag => (mapDelete m f.requestId, [(tag, f.payload)])
  | none => (m, [])

/-- Frames delivered in order; returns the resolutions
`(handler tag, payload)` in delivery order. -/
def dispatchAll (m : RMap) : List Frame → RMap × List (Nat × Nat)
  | [] => (m, [])
  | f :: fs =>
    let r1 := dispatch m f
    let r2 := dispatchAll r1.1 fs
    (r2.1, r1.2 ++ r2.2)

/-- Correct routing: a handler that resolved with `payload` was
registered under some id whose own frame carried that payload — a result
is never handed to a handler registered under a different id.  Together
with the id-assignment fact (`sendRequest` returns the wall clock as the
id), this is what holds of the source once the two outstanding ids are
distinct. -/
def C7Concl (m : RMap) (fs : List Frame) (tag payload : Nat) : Prop :=
  (∃ id, (id, tag) ∈ m.entries ∧ Frame.mk id payload ∈ fs) ∧
  (∀ (clock tg : Nat) (mm : RMap), (sendRequest clock tg mm).2 = clock)

end CNReq

namespace Signer

/-- The JSON values `MessageSigner.ts` serialises (enough of JSON for the
`{req: [requestId, method, params, timestamp]}` payloads; `num` covers
the ids and timestamps, which are nonnegative integers). -/
inductive Json
  | nul
  | bool (b : Bool)
  | num (n : Nat)
  | str (s : String)
  | arr (xs : List Json)
  | obj (fields : List (String × Json))

/-- Minimal JSON string escaping (backslash and quote, as
`JSON.stringify` does for these characters). -/
def escapeChar (c : Char) : String :=
  if c = Char.ofNat 34 then String.mk [Char.ofNat 92, Char.ofNat 34]
  else if c = Char.ofNat 92 then String.mk [Char.ofNat 92, Char.ofNat 92]
  else String.mk [c]

def escapeString (s : String) : String :=
  String.join (s.data.map escapeChar)

mutual

/-- `JSON.stringify` with its default (no-whitespace) layout. -/
def stringify : Json → String
  | .nul => "null"
  | .bool true => "true"
  | .bool false => "false"
  | .num n => toString n
  | .str s => String.mk [Char.ofNat 34] ++ escapeString s ++ String.mk [Char.ofNat 34]
  | .arr xs => "[" ++ stringifyList xs ++ "]"
  | .obj fs => "\x7b" ++ stringifyFields fs ++ "\x7d"

def stringifyList : List Json → String
  | [] => ""
  | [x] => stringify x
  | x :: y :: xs => stringify x ++ "," ++ stringifyList (y :: xs)

def stringifyFields : List (String × Json) → String
  | [] => ""
  | [(k, v)] =>
      String.mk [Char.ofNat 34] ++ escapeString k ++ String.mk [Char.ofNat 34]
        ++ ":" ++ stringify v
  | (k, v) :: f :: fs =>
      String.mk [Char.ofNat 34] ++ escapeString k ++ String.mk [Char.ofNat 34]
        ++ ":" ++ stringify v ++ "," ++ stringifyFields (f :: fs)

end

/-- The request object `createSignedRequest` builds and serialises:
`{req: [requestId, method, params, timestamp]}`. -/
def reqPayload (requestId : Nat) (method : String) (params : List Json)
    (timestamp : Nat) : Json :=
  Json.obj [("req", Json.arr
    [Json.num requestId, Json.str method, Json.arr params, Json.num timestamp])]

/-- `createMessageSigner`'s returned closure: `JSON.stringify` the
payload, take `ethers.id` of it (the keccak-256 digest of the UTF-8
bytes, abstracted as `keccak`), and sign that digest directly with the
wallet's raw ECDSA signing key (`wallet.signingKey.sign`, abstracted as
`signKey`; ethers' implementation is deterministic RFC-6979 ECDSA, hence
a pure function of key and digest).  No EIP-191 message prefix is
applied anywhere on this path. -/
def messageSignerSig (keccak : String → Nat) (signKey : Nat → Nat → Nat)
    (key : Nat) (payload : Json) : Nat :=
  signKey key (keccak (stringify payload))

/-- The signature `createSignedRequest(signer, method, params)` attaches:
the message signer applied to the `{req: [...]}` payload. -/
def createSignedRequestSig (keccak : String → Nat) (signKey : Nat → Nat → Nat)
    (key : Nat) (requestId : Nat) (method : String) (params : List Json)
    (timestamp : Nat) : Nat :=
  messageSignerSig keccak signKey key (reqPayload requestId method params timestamp)

/-- The EIP-191 ("ecosystem message prefix") encoding
`"\x19Ethereum Signed Message:\n" ++ length ++ message` that
`personal_sign`-style APIs hash instead of the raw message.  The source
deliberately avoids it. -/
def eip191Encode (msg : String) : String :=
  "\x19Ethereum Signed Message:\n" ++ toString msg.length ++ msg

/-- The first character of a string, if any. -/
def headChar (s : String) : Option Char :=
  s.data.head?

end Signer

/-! ## Theorems -/

namespace Vault

@[simp] lemma deposits_emitEv (s : VaultState) (e : VaultEvent) :
    (emitEv s e).deposits = s.deposits := rfl

@[simp] lemma nftOwner_emitEv (s : VaultState) (e : VaultEvent) :
    (emitEv s e).nftOwner = s.nftOwner := rfl

@[simp] lemma nftNextId_emitEv (s : VaultState) (e : VaultEvent) :
    (emitEv s e).nftNextId = s.nftNextId := rfl

@[simp] lemma hubVaultAddress_emitEv (s : VaultState) (e : VaultEvent) :
    (emitEv s e).hubVaultAddress = s.hubVaultAddress := rfl

@[simp] lemma messenger_emitEv (s : VaultState) (e : VaultEvent) :
    (emitEv s e).messenger = s.messenger := rfl

@[simp] lemma owner_emitEv (s : VaultState) (e : VaultEvent) :
    (emitEv s e).owner = s.owner := rfl

@[simp] lemma nowTime_emitEv (s : VaultState) (e : VaultEvent) :
    (emitEv s e).nowTime = s.nowTime := rfl

@[simp] lemma deposits_setDeposit (s : VaultState) (k : Nat)
    (d : RemoteDeposit) (pid : Nat) :
    (setDeposit s k d).deposits pid = if pid = k then d else s.deposits pid :=
  rfl

@[simp] lemma nftOwner_setDeposit (s : VaultState) (k : Nat)
    (d : RemoteDeposit) :
    (setDeposit s k d).nftOwner = s.nftOwner := rfl

@[simp] lemma nftNextId_setDeposit (s : VaultState) (k : Nat)
    (d : RemoteDeposit) :
    (setDeposit s k d).nftNextId = s.nftNextId := rfl

@[simp] lemma hubVaultAddress_setDeposit (s : VaultState) (k : Nat)
    (d : RemoteDeposit) :
    (setDeposit s k d).hubVaultAddress = s.hubVaultAddress := rfl

@[simp] lemma messenger_setDeposit (s : VaultState) (k : Nat)
    (d : RemoteDeposit) :
    (setDeposit s k d).messenger = s.messenger := rfl

@[simp] lemma owner_setDeposit (s : VaultState) (k : Nat)
    (d : RemoteDeposit) :
    (setDeposit s k d).owner = s.owner := rfl

@[simp] lemma nowTime_setDeposit (s : VaultState) (k : Nat)
    (d : RemoteDeposit) :
    (setDeposit s k d).nowTime = s.nowTime := rfl

/-- Claim C1 (the code diverges from it): run the full lifecycle — a
deposit of 1,000,000, hub confirmation, then `receiveSettlement`
reporting principal 1,000,000 and yield 100,000, with the default
`protocolFeeBps = 100` — and `withdraw` by the depositor pays out
1,000,000 with fee 0, not the claimed payout 1,099,000 and fee 1,000:
`withdraw` hardcodes `yieldAmount = 0` (the source's
"TODO: Get from settlement message") and `receiveSettlement` stores no
settlement amounts for it to use. -/
theorem c1_withdraw_pays_principal_only :
    (do
      let s1 ← setMessenger (initState 9 8 77) 9 3
      let s2 ← setHubVault s1 9 4
      let (s3, pid) ← deposit s2 5 42 1000000
      let s4 ← confirmDeposit s3 3 pid 111
      let s5 ← receiveSettlement s4 3 pid 1000000 100000
      let (_, total, fee) ← withdraw s5 5 pid
      pure (total, fee) : Except VaultError (Nat × Nat)) = .ok (1000000, 0) :=
  rfl

/-- Claim C10: `deposit` rejects the zero token address with
`InvalidToken` and a zero amount with `InvalidAmount` — a revert creates
no record and mints nothing — and a successful deposit implies a nonzero
token and positive amount, writes the record with the caller's data,
mints the position to the caller, and leaves the record `Pending` (it is
`Sent` only when the auto-forward to a configured hub ran in the same
call). -/
theorem c10_deposit_validation :
    ∀ (s : VaultState) (caller token amount : Nat),
      (token = 0 → deposit s caller token amount = .error .invalidToken) ∧
      (token ≠ 0 → amount = 0 →
        deposit s caller token amount = .error .invalidAmount) ∧
      (∀ s2 pid, deposit s caller token amount = .ok (s2, pid) →
        token ≠ 0 ∧ amount ≠ 0 ∧ pid = s.nftNextId ∧
        (s2.deposits pid).positionId = pid ∧
        (s2.deposits pid).depositor = caller ∧
        (s2.deposits pid).token = token ∧
        (s2.deposits pid).amount = amount ∧
        (s2.deposits pid).timestamp = s.nowTime ∧
        s2.nftOwner pid = some caller ∧
        ((s2.deposits pid).status = .pending ∨
          (s2.deposits pid).status = .sent) ∧
        ((s.hubVaultAddress = 0 ∨ s.messenger = 0) →
          (s2.deposits pid).status = .pending)) := by
  intro s caller token amount
  refine ⟨fun h => by simp [deposit, h], fun h1 h2 => by simp [deposit, h1, h2], ?_⟩
  intro s2 pid h
  by_cases h1 : token = 0
  · simp [deposit, h1] at h
  by_cases h2 : amount = 0
  · simp [deposit, h1, h2] at h
  refine ⟨h1, h2, ?_⟩
  simp only [deposit, if_neg h1, if_neg h2] at h
  by_cases hcfg : s.hubVaultAddress ≠ 0 ∧ s.messenger ≠ 0
  · rw [if_pos (by simpa using hcfg)] at h
    simp [sendToHubCore, hcfg.1, Except.map] at h
    obtain ⟨hs2, hpid⟩ := h
    subst hpid
    subst hs2
    simp [hcfg.1, hcfg.2]
  · rw [if_neg (by simpa using hcfg)] at h
    simp only [Except.ok.injEq, Prod.mk.injEq] at h
    obtain ⟨hs2, hpid⟩ := h
    subst hpid
    subst hs2
    simp

end Vault

namespace Nitro

/-- `sampleFinalized` is exactly what create-then-finalize computes. -/
lemma sampleFinalized_eq :
    (do
      let db1 ← createChannelForDeal emptyDb 500 7 21 22 1000
      finalizeChannel db1 300 700 : Except NitroErr ChannelDb)
      = .ok sampleFinalized := rfl

/-- Claim C2 is false on the code: after a FINALIZE, a further operate
call does not fail with `SessionAlreadyFinalized` — it succeeds, bumps
the version from 2 to 3, sets intent back to OPERATE and changes the
stored state and history. -/
theorem c2_counterexample_operate_after_finalize :
    (do
      let db1 ← createChannelForDeal emptyDb 500 7 21 22 1000
      let db2 ← finalizeChannel db1 300 700
      let db3 ← updateChannelState db2 5 6 none
      pure (db3.channel.map fun c => (c.version, c.intent),
        db3.history.map fun h => h.version)
      : Except NitroErr (Option (Nat × Intent) × List Nat))
      = .ok (some (3, Intent.operate), [1, 3]) := rfl

/-- Claim C2 amended: neither `updateChannelState` nor `finalizeChannel`
checks the current intent; on a session whose most recent transition set
intent FINALIZE both still succeed and mutate the session (no
`SessionAlreadyFinalized` error exists in the code). -/
theorem c2_amended_finalize_not_terminal :
    ∀ (db : ChannelDb) (cur : ChannelState) (a0 a1 : Int) (sd : Option Nat),
      db.channel = some cur → cur.intent = Intent.finalize →
      NotTerminalConcl db cur a0 a1 sd := by
  intro db cur a0 a1 sd hdb _hfin
  constructor
  · simp [updateChannelState, hdb, NotTerminalConcl]
  · simp [finalizeChannel, hdb]

/-- Witness for the amended C2 at the concrete finalized session. -/
theorem c2_witness : NotTerminalConcl sampleFinalized sampleCur 5 6 none :=
  c2_amended_finalize_not_terminal sampleFinalized sampleCur 5 6 none rfl rfl

/-- Claim C3 is false on the code: `finalizeChannel` increments the
current version without appending a history entry, so right after
create-then-finalize the current version is 2 while the only history
entry has version 1. -/
theorem c3_counterexample_finalize_desyncs_history :
    (do
      let db1 ← createChannelForDeal emptyDb 500 7 21 22 1000
      let db2 ← finalizeChannel db1 300 700
      pure (db2.channel.map fun c => c.version,
        db2.history.map fun h => h.version)
      : Except NitroErr (Option Nat × List Nat)) = .ok (some 2, [1]) ∧
    (2 : Nat) ≠ 1 := ⟨rfl, by decide⟩

lemma goodDb_empty : GoodDb emptyDb := by
  simp [GoodDb, emptyDb]

lemma goodDb_applyOp (db : ChannelDb) (op : NitroOp) (hg : GoodDb db)
    (hnf : op.isFinalize = false) : GoodDb (applyOp db op) := by
  obtain ⟨hmap, hch⟩ := hg
  cases op with
  | create sid did d l amt =>
    cases hdb : db.channel with
    | some c =>
      simpa [applyOp, nitroStep, createChannelForDeal, hdb, GoodDb, hmap]
        using hch
    | none =>
      rw [hdb] at hch
      simp [applyOp, nitroStep, createChannelForDeal, hdb, GoodDb, hch]
  | operate a0 a1 sd =>
    cases hdb : db.channel with
    | none =>
      rw [hdb] at hch
      simp [applyOp, nitroStep, updateChannelState, hdb, GoodDb, hmap, hch]
    | some c =>
      rw [hdb] at hch
      obtain ⟨hver, hne⟩ := hch
      constructor
      · simp only [applyOp, nitroStep, updateChannelState, hdb,
          List.map_append, List.map_cons, List.map_nil, hmap,
          List.length_append, List.length_cons, List.length_nil, hver]
        rw [List.range'_concat]
        simp
        omega
      · simp [applyOp, nitroStep, updateChannelState, hdb, hver]
  | finalize a0 a1 => simp [NitroOp.isFinalize] at hnf

lemma goodDb_runOps (ops : List NitroOp) :
    ∀ db : ChannelDb, GoodDb db → (∀ op ∈ ops, op.isFinalize = false) →
      GoodDb (runOps db ops) := by
  induction ops with
  | nil => intro db hg _; exact hg
  | cons op ops ih =>
    intro db hg hnf
    exact ih (applyOp db op)
      (goodDb_applyOp db op hg (hnf op (List.mem_cons_self op ops)))
      (fun o ho => hnf o (List.mem_cons_of_mem op ho))

lemma goodDb_concl (db : ChannelDb) (hg : GoodDb db) : HistoryConcl db := by
  obtain ⟨hmap, hch⟩ := hg
  constructor
  · intro i h
    have hco := congrArg (fun l : List Nat => l[i]?) hmap
    have h4 : i < (List.range' 1 db.history.length).length := by simpa using h
    simp only [List.getElem?_eq_getElem (l := db.history.map fun h => h.version)
        (by simpa using h),
      List.getElem?_eq_getElem (l := List.range' 1 db.history.length) h4,
      List.getElem_map, List.getElem_range'_1, Option.some.injEq] at hco
    simpa [List.get_eq_getElem, Nat.add_comm] using hco
  · intro c hc
    rw [hc] at hch
    obtain ⟨hver, hne⟩ := hch
    have h5 : db.history.getLast?.map (fun h => h.version)
        = (db.history.map (fun h => h.version)).getLast? :=
      (List.getLast?_map _ _).symm
    rw [h5, hmap]
    obtain ⟨n, hn⟩ : ∃ n, db.history.length = n + 1 := by
      cases hl : db.history with
      | nil => exact absurd hl hne
      | cons a l => exact ⟨l.length, by simp [hl]⟩
    rw [hn, List.range'_concat, List.getLast?_concat, hver, hn]
    congr 1
    omega

/-- Claim C3 amended: as long as no `finalizeChannel` call occurs, every
run from the empty database keeps the invariant — history versions are
contiguous from 1 (`history[i].version = i+1`) and the current version
equals the last history entry's version after every operation.
`finalizeChannel` breaks both (see the counterexample). -/
theorem c3_amended_history_contiguous_without_finalize :
    ∀ ops : List NitroOp, (∀ op ∈ ops, op.isFinalize = false) →
      HistoryConcl (runOps emptyDb ops) :=
  fun ops hnf => goodDb_concl _ (goodDb_runOps ops emptyDb goodDb_empty hnf)

/-- Witness for the amended C3: a concrete create-then-operate run. -/
theorem c3_witness :
    HistoryConcl (runOps emptyDb
      [NitroOp.create 500 7 21 22 1000, NitroOp.operate 5 6 none]) :=
  c3_amended_history_contiguous_without_finalize
    [NitroOp.create 500 7 21 22 1000, NitroOp.operate 5 6 none] (by decide)

end Nitro

namespace CNAuth

lemma authRun_not_authenticated (evs : List AuthEvent) :
    ∀ s : AuthState, (∀ e ∈ evs, e.isSuccess = false) →
      s.isAuthenticated = false → (authRun s evs).isAuthenticated = false := by
  induction evs with
  | nil => intro s _ hs; exact hs
  | cons e es ih =>
    intro s hnf hs
    refine ih (authStep s e) (fun x hx => hnf x (List.mem_cons_of_mem e hx)) ?_
    have he := hnf e (List.mem_cons_self e es)
    cases e with
    | wsOpen => simpa [authStep] using hs
    | authChallenge c => simpa [authStep] using hs
    | authVerifyRes success jwt =>
      simp [AuthEvent.isSuccess] at he
      simpa [authStep, he] using hs

/-- Claim C4 is false on the code: after the transport `open` event
alone — before any challenge or verification — `connect()` has already
resolved successfully, with the client still Authenticating and not
authenticated; and when the server rejects the `auth_verify` signature,
the connect promise (long resolved) never fails with
`AuthenticationFailed` — the client simply stays unauthenticated. -/
theorem c4_counterexample_connect_resolves_before_auth :
    (authRun connectStart [AuthEvent.wsOpen]).connectOutcome = some true ∧
    (authRun connectStart [AuthEvent.wsOpen]).connectionStatus
      = CStatus.authenticating ∧
    (authRun connectStart [AuthEvent.wsOpen]).isAuthenticated = false ∧
    (authRun connectStart [AuthEvent.wsOpen, AuthEvent.authChallenge 5,
      AuthEvent.authVerifyRes false none]).connectOutcome = some true ∧
    (authRun connectStart [AuthEvent.wsOpen, AuthEvent.authChallenge 5,
      AuthEvent.authVerifyRes false none]).isAuthenticated = false := by
  decide

/-- Claim C4 amended: `connect()` resolves as soon as the transport opens
and the signed `auth_request` is sent, with the client still in
Authenticating; Authenticated is reached exactly when a successful
`auth_verify` response arrives; a failed `auth_verify` changes nothing —
the failure is swallowed (logged only), no `AuthenticationFailed`
surfaces, and without a success frame the client never reaches
Authenticated on the connection. -/
theorem c4_amended_connect_resolves_on_open :
    ∀ (s : AuthState) (jwt : Option Nat),
      (authStep s AuthEvent.wsOpen).connectOutcome = some true ∧
      (authStep s AuthEvent.wsOpen).connectionStatus = CStatus.authenticating ∧
      (authStep s AuthEvent.wsOpen).isAuthenticated = s.isAuthenticated ∧
      (authStep s (AuthEvent.authVerifyRes true jwt)).isAuthenticated = true ∧
      (authStep s (AuthEvent.authVerifyRes true jwt)).connectionStatus
        = CStatus.authenticated ∧
      authStep s (AuthEvent.authVerifyRes false jwt) = s ∧
      (∀ evs : List AuthEvent, (∀ e ∈ evs, e.isSuccess = false) →
        (authRun connectStart evs).isAuthenticated = false) := by
  intro s jwt
  refine ⟨rfl, rfl, rfl, by simp [authStep], by simp [authStep],
    by simp [authStep], ?_⟩
  intro evs h
  exact authRun_not_authenticated evs connectStart h rfl

end CNAuth

namespace CNConn

/-- Claim C5 is false on the code: an explicit `disconnect()` on a live
client does reject the pending request with `ConnectionClosed` and clear
the map, but when the transport `close` event then fires, a reconnect
attempt IS scheduled (here after 3000 ms) — nothing suppresses it. -/
theorem c5_counterexample_reconnect_after_disconnect :
    (disconnect liveClient).settled = [(1, Outcome.connectionClosed)] ∧
    (disconnect liveClient).pending = [] ∧
    (onClose (disconnect liveClient)).scheduled = [3000] ∧
    (onClose (disconnect liveClient)).emitted
      = [ConnEmit.disconnected, ConnEmit.reconnecting 1] := by
  decide

/-- Claim C5 amended: `disconnect()` rejects every pending request with
`ConnectionClosed` and clears the correlation map, but it does not
suppress reconnection: the `close` handler calls `attemptReconnect`
unconditionally, so a reconnect is scheduled whenever fewer than five
attempts have been made. -/
theorem c5_amended_disconnect_rejects_but_reconnects :
    ∀ s : ConnState, s.wsLive = true → DisconnectConcl s := by
  intro s hws
  refine ⟨by simp [disconnect, hws], by simp [disconnect, hws],
    by simp [disconnect, hws], ?_⟩
  intro hlt
  simp [onClose, attemptReconnect, disconnect, hws, Nat.not_le.mpr hlt]

/-- Witness for the amended C5 at the concrete live client. -/
theorem c5_witness : DisconnectConcl liveClient :=
  c5_amended_disconnect_rejects_but_reconnects liveClient rfl

/-- Claim C8 is false on the code at the exhaustion point: after the
fifth failed attempt, `attemptReconnect` schedules nothing further —
that much holds — but no reconnect-exhausted signal is surfaced to
observers: the emitted-event list is unchanged; only an error log line
is written. -/
theorem c8_counterexample_exhaustion_not_surfaced :
    (attemptReconnect exhaustedClient).scheduled = exhaustedClient.scheduled ∧
    (attemptReconnect exhaustedClient).emitted = exhaustedClient.emitted ∧
    (attemptReconnect exhaustedClient).reconnectAttempts = 5 ∧
    (attemptReconnect exhaustedClient).logs
      = exhaustedClient.logs ++ [LogEntry.maxReconnectReached] := by
  decide

/-- Claim C8 amended: below the maximum, the n-th consecutive attempt is
scheduled `3000 * 2 ^ (n-1)` ms after the prior failure (3000, 6000,
12000, 24000 for attempts 1..4) and `reconnecting n` is emitted; at the
maximum (5 failed attempts) nothing further is scheduled and nothing is
emitted to observers — exhaustion is only logged. -/
theorem c8_amended_backoff_and_silent_exhaustion :
    ∀ s : ConnState,
      (s.reconnectAttempts < maxReconnectAttempts →
        (attemptReconnect s).reconnectAttempts = s.reconnectAttempts + 1 ∧
        (attemptReconnect s).scheduled = s.scheduled ++
          [reconnectInterval * reconnectBackoffMultiplier
            ^ s.reconnectAttempts] ∧
        (attemptReconnect s).emitted = s.emitted ++
          [ConnEmit.reconnecting (s.reconnectAttempts + 1)]) ∧
      (maxReconnectAttempts ≤ s.reconnectAttempts →
        (attemptReconnect s).scheduled = s.scheduled ∧
        (attemptReconnect s).emitted = s.emitted ∧
        (attemptReconnect s).reconnectAttempts = s.reconnectAttempts ∧
        (attemptReconnect s).logs = s.logs ++ [LogEntry.maxReconnectReached]) ∧
      (List.map (fun n => reconnectInterval * reconnectBackoffMultiplier ^ n)
        [0, 1, 2, 3] = [3000, 6000, 12000, 24000]) := by
  intro s
  refine ⟨fun hlt => ?_, fun hge => ?_, by decide⟩
  · simp [attemptReconnect, Nat.not_le.mpr hlt]
  · simp [attemptReconnect, hge]

end CNConn

namespace CNReq

lemma mapGet_mem {m : RMap} {k v : Nat} (h : mapGet m k = some v) :
    (k, v) ∈ m.entries := by
  unfold mapGet at h
  cases hf : m.entries.find? (fun p => p.1 = k) with
  | none => simp [hf] at h
  | some p =>
    rw [hf] at h
    have hmem := List.mem_of_find?_eq_some hf
    have hkey := List.find?_some hf
    simp at h hkey
    rwa [← h, ← hkey, Prod.mk.eta]

lemma mapDelete_subset {m : RMap} {k : Nat} {e : Nat × Nat}
    (h : e ∈ (mapDelete m k).entries) : e ∈ m.entries :=
  List.mem_of_mem_filter h

lemma dispatchAll_routes (fs : List Frame) :
    ∀ (m : RMap) (tag payload : Nat),
      (tag, payload) ∈ (dispatchAll m fs).2 →
      ∃ id, (id, tag) ∈ m.entries ∧ Frame.mk id payload ∈ fs := by
  induction fs with
  | nil => intro m tag payload h; simp [dispatchAll] at h
  | cons f fs ih =>
    intro m tag payload h
    cases hg : mapGet m f.requestId with
    | none =>
      have h2 : (tag, payload) ∈ (dispatchAll m fs).2 := by
        simpa [dispatchAll, dispatch, hg] using h
      obtain ⟨id, hm, hf⟩ := ih m tag payload h2
      exact ⟨id, hm, List.mem_cons_of_mem f hf⟩
    | some tg =>
      have h2 : (tag, payload) = (tg, f.payload) ∨
          (tag, payload) ∈ (dispatchAll (mapDelete m f.requestId) fs).2 := by
        simpa [dispatchAll, dispatch, hg] using h
      rcases h2 with h3 | h3
      · refine ⟨f.requestId, ?_, ?_⟩
        · rw [Prod.mk.injEq] at h3
          rw [h3.1]
          exact mapGet_mem hg
        · rw [Prod.mk.injEq] at h3
          rw [h3.2]
          exact List.mem_cons_self f fs
      · obtain ⟨id, hm, hf⟩ := ih (mapDelete m f.requestId) tag payload h3
        exact ⟨id, mapDelete_subset hm, List.mem_cons_of_mem f hf⟩

/-- Claim C7 is false on the code: two `request()` calls in the same
millisecond (`Date.now()` = 1700 for both) get the SAME correlation id —
not unique, not strictly increasing — and the second registration
overwrites the first handler, which can then never receive its result. -/
theorem c7_counterexample_same_millisecond_collision :
    (sendRequest 1700 7 emptyMap).2
      = (sendRequest 1700 11 (sendRequest 1700 7 emptyMap).1).2 ∧
    (sendRequest 1700 11 (sendRequest 1700 7 emptyMap).1).1.entries
      = [(1700, 11)] := by
  decide

/-- Claim C7 amended: the correlation id is the wall clock at the call
(colliding calls in one millisecond overwrite each other); whenever the
outstanding ids are distinct, dispatch resolves each handler only with a
frame carrying the id that handler was registered under — results are
never swapped, regardless of the delivery order of unrelated frames. -/
theorem c7_amended_distinct_ids_route_correctly :
    ∀ (m : RMap) (fs : List Frame) (tag payload : Nat),
      (tag, payload) ∈ (dispatchAll m fs).2 →
      C7Concl m fs tag payload := by
  intro m fs tag payload h
  exact ⟨dispatchAll_routes fs m tag payload h, fun _ _ _ => rfl⟩

/-- Witness for the amended C7: two pending requests (ids 10 and 20),
frames for id 20 and an unrelated id 30 delivered; the resolution that
occurred is handler 2's, from the frame with its own id 20. -/
theorem c7_witness :
    C7Concl { entries := [(10, 1), (20, 2)] } [⟨20, 99⟩, ⟨30, 55⟩] 2 99 :=
  c7_amended_distinct_ids_route_correctly
    { entries := [(10, 1), (20, 2)] } [⟨20, 99⟩, ⟨30, 55⟩] 2 99 (by decide)

end CNReq

namespace Signer

lemma headChar_stringify_obj (fs : List (String × Json)) :
    headChar (stringify (Json.obj fs)) = some (Char.ofNat 123) := by
  have h : stringify (Json.obj fs)
      = "\x7b" ++ stringifyFields fs ++ "\x7d" := by
    simp [stringify]
  have hd : ("\x7b" : String).data = [Char.ofNat 123] := by decide
  rw [headChar, h, String.data_append, String.data_append, hd]
  simp

lemma headChar_eip191 (msg : String) :
    headChar (eip191Encode msg) = some (Char.ofNat 25) := by
  have hd : ("\x19Ethereum Signed Message:\n" : String).data
      = Char.ofNat 25 :: "Ethereum Signed Message:\n".data := by decide
  rw [headChar, eip191Encode, String.data_append, String.data_append, hd]
  simp

/-- Claim C9: the request signature is exactly the raw ECDSA signature
(`signKey`, ethers' deterministic RFC-6979 signing key) over the
keccak-256 digest (`keccak`, ethers' `id`) of the canonical JSON
serialization of the `{req: [requestId, method, params, timestamp]}`
tuple; it is deterministic — equal serialized payloads with the same key
give the identical signature — and no EIP-191 message prefix is applied:
the signed serialization can never equal an EIP-191-prefixed message
(the former starts with the byte 0x7b, the latter with 0x19). -/
theorem c9_sign_raw_digest_no_prefix :
    ∀ (keccak : String → Nat) (signKey : Nat → Nat → Nat)
      (key requestId : Nat) (method : String) (params : List Json)
      (timestamp : Nat),
      (createSignedRequestSig keccak signKey key requestId method params
          timestamp
        = signKey key (keccak (stringify
            (reqPayload requestId method params timestamp)))) ∧
      (∀ (requestId2 : Nat) (method2 : String) (params2 : List Json)
          (timestamp2 : Nat),
        stringify (reqPayload requestId method params timestamp)
          = stringify (reqPayload requestId2 method2 params2 timestamp2) →
        createSignedRequestSig keccak signKey key requestId method params
            timestamp
          = createSignedRequestSig keccak signKey key requestId2 method2
              params2 timestamp2) ∧
      (∀ msg : String,
        stringify (reqPayload requestId method params timestamp)
          ≠ eip191Encode msg) := by
  intro keccak signKey key requestId method params timestamp
  refine ⟨rfl, ?_, ?_⟩
  · intro r2 m2 p2 t2 h
    simp [createSignedRequestSig, messageSignerSig, h]
  · intro msg h
    have h1 := congrArg headChar h
    rw [reqPayload, headChar_stringify_obj, headChar_eip191] at h1
    simp at h1

end Signer

namespace Vault

lemma forwardEdge_refl (a : DepositStatus) : forwardEdge a a = true := by
  cases a <;> decide

lemma deposit_ok_frame {s : VaultState} {caller token amount : Nat}
    {p : VaultState × Nat} (h : deposit s caller token amount = .ok p) :
    p.2 = s.nftNextId ∧ p.1.nftNextId = s.nftNextId + 1 ∧
    (∀ q, q ≠ s.nftNextId →
      p.1.deposits q = s.deposits q ∧ p.1.nftOwner q = s.nftOwner q) := by
  by_cases h1 : token = 0
  · simp [deposit, h1] at h
  by_cases h2 : amount = 0
  · simp [deposit, h1, h2] at h
  simp only [deposit, if_neg h1, if_neg h2] at h
  by_cases hcfg : s.hubVaultAddress ≠ 0 ∧ s.messenger ≠ 0
  · rw [if_pos (by simpa using hcfg)] at h
    simp [sendToHubCore, hcfg.1, Except.map] at h
    rw [← h]
    refine ⟨rfl, rfl, fun q hq => ?_⟩
    simp [hq]
  · rw [if_neg (by simpa using hcfg)] at h
    rw [← Except.ok.inj h]
    refine ⟨rfl, rfl, fun q hq => ?_⟩
    simp [hq]

lemma sendToHubCore_ok_shape {s : VaultState} {pid : Nat} {s2 : VaultState}
    (h : sendToHubCore s pid = .ok s2) :
    (s.deposits pid).status = .pending ∧
    s2.deposits pid = { s.deposits pid with status := .sent } ∧
    (∀ q, q ≠ pid → s2.deposits q = s.deposits q) ∧
    s2.nftOwner = s.nftOwner ∧ s2.nftNextId = s.nftNextId := by
  simp only [sendToHubCore] at h
  split at h
  · exact absurd h (by simp)
  · split at h
    · exact absurd h (by simp)
    · rename_i h1 h2
      rw [← Except.ok.inj h]
      refine ⟨not_not.mp h1, by simp, fun q hq => by simp [hq], rfl, rfl⟩

lemma confirmDeposit_ok_shape {s : VaultState} {caller pid hubPid : Nat}
    {s2 : VaultState} (h : confirmDeposit s caller pid hubPid = .ok s2) :
    (s.deposits pid).status = .sent ∧
    s2.deposits pid
      = { s.deposits pid with hubPositionId := hubPid, status := .confirmed } ∧
    (∀ q, q ≠ pid → s2.deposits q = s.deposits q) ∧
    s2.nftOwner = s.nftOwner ∧ s2.nftNextId = s.nftNextId := by
  simp only [confirmDeposit] at h
  split at h
  · exact absurd h (by simp)
  · split at h
    · exact absurd h (by simp)
    · rename_i h1 h2
      rw [← Except.ok.inj h]
      refine ⟨not_not.mp h2, by simp, fun q hq => by simp [hq], rfl, rfl⟩

lemma receiveSettlement_ok_shape {s : VaultState}
    {caller pid principal yieldAmount : Nat} {s2 : VaultState}
    (h : receiveSettlement s caller pid principal yieldAmount = .ok s2) :
    (s.deposits pid).status = .confirmed ∧
    s2.deposits pid = { s.deposits pid with status := .settled } ∧
    (∀ q, q ≠ pid → s2.deposits q = s.deposits q) ∧
    s2.nftOwner = s.nftOwner ∧ s2.nftNextId = s.nftNextId := by
  simp only [receiveSettlement] at h
  split at h
  · exact absurd h (by simp)
  · split at h
    · exact absurd h (by simp)
    · rename_i h1 h2
      rw [← Except.ok.inj h]
      refine ⟨not_not.mp h2, by simp, fun q hq => by simp [hq], rfl, rfl⟩

lemma withdraw_ok_shape {s : VaultState} {caller pid : Nat}
    {p : VaultState × Nat × Nat} (h : withdraw s caller pid = .ok p) :
    (s.deposits pid).status = .settled ∧
    p.1.deposits pid = { s.deposits pid with status := .withdrawn } ∧
    (∀ q, q ≠ pid → p.1.deposits q = s.deposits q) ∧
    p.1.nftOwner pid = none ∧
    (∀ q, q ≠ pid → p.1.nftOwner q = s.nftOwner q) ∧
    p.1.nftNextId = s.nftNextId := by
  simp only [withdraw] at h
  split at h
  · exact absurd h (by simp)
  · split at h
    · exact absurd h (by simp)
    · split at h
      · exact absurd h (by simp)
      · rename_i h1 h2 h3
        rw [← Except.ok.inj h]
        split
        all_goals
          refine ⟨not_not.mp h2, by simp, fun q hq => by simp [hq],
            by simp, fun q hq => by simp [hq], rfl⟩

lemma emergencyWithdraw_ok_shape {s : VaultState} {caller pid : Nat}
    {p : VaultState × Nat} (h : emergencyWithdraw s caller pid = .ok p) :
    (s.deposits pid).status = .pending ∧
    p.1.deposits pid = { s.deposits pid with status := .withdrawn } ∧
    (∀ q, q ≠ pid → p.1.deposits q = s.deposits q) ∧
    p.1.nftOwner pid = none ∧
    (∀ q, q ≠ pid → p.1.nftOwner q = s.nftOwner q) ∧
    p.1.nftNextId = s.nftNextId := by
  simp only [emergencyWithdraw] at h
  split at h
  · exact absurd h (by simp)
  · split at h
    · exact absurd h (by simp)
    · rename_i h1 h2
      rw [← Except.ok.inj h]
      refine ⟨not_not.mp h2, by simp, fun q hq => by simp [hq],
        by simp, fun q hq => by simp [hq], rfl⟩

lemma keysFresh_step {s s2 : VaultState} (op : VaultOp) (hk : KeysFresh s)
    (h : step s op = .ok s2) : KeysFresh s2 := by
  cases op with
  | deposit caller token amount =>
    cases hd : deposit s caller token amount with
    | error e => simp [step, hd, Except.map] at h
    | ok p =>
      have hs2 : p.1 = s2 := by simpa [step, hd, Except.map] using h
      obtain ⟨hpid, hnext, hframe⟩ := deposit_ok_frame hd
      rw [← hs2]
      intro q hq
      rw [hnext] at hq
      have hne : q ≠ s.nftNextId := by omega
      obtain ⟨hdq, hoq⟩ := hframe q hne
      rw [hdq, hoq]
      exact hk q (by omega)
  | sendToHub caller pid =>
    simp only [step, sendToHub] at h
    split at h
    · exact absurd h (by simp)
    · obtain ⟨hst, hdep, hframe, how, hnext⟩ := sendToHubCore_ok_shape h
      intro q hq
      rw [hnext] at hq
      rw [how]
      by_cases hqp : q = pid
      · subst hqp
        rw [hdep]
        exact ⟨(hk q hq).1, (hk q hq).2⟩
      · rw [hframe q hqp]
        exact hk q hq
  | confirmDeposit caller pid hubPid =>
    obtain ⟨hst, hdep, hframe, how, hnext⟩ := confirmDeposit_ok_shape h
    intro q hq
    rw [hnext] at hq
    rw [how]
    by_cases hqp : q = pid
    · subst hqp
      rw [hdep]
      exact ⟨(hk q hq).1, (hk q hq).2⟩
    · rw [hframe q hqp]
      exact hk q hq
  | receiveSettlement caller pid principal yieldAmount =>
    obtain ⟨hst, hdep, hframe, how, hnext⟩ := receiveSettlement_ok_shape h
    intro q hq
    rw [hnext] at hq
    rw [how]
    by_cases hqp : q = pid
    · subst hqp
      rw [hdep]
      exact ⟨(hk q hq).1, (hk q hq).2⟩
    · rw [hframe q hqp]
      exact hk q hq
  | withdraw caller pid =>
    cases hd : withdraw s caller pid with
    | error e => simp [step, hd, Except.map] at h
    | ok p =>
      have hs2 : p.1 = s2 := by simpa [step, hd, Except.map] using h
      obtain ⟨hst, hdep, hframe, hopid, hoq, hnext⟩ := withdraw_ok_shape hd
      rw [← hs2]
      intro q hq
      rw [hnext] at hq
      by_cases hqp : q = pid
      · subst hqp
        rw [hdep, hopid]
        exact ⟨(hk q hq).1, rfl⟩
      · rw [hframe q hqp, hoq q hqp]
        exact hk q hq
  | emergencyWithdraw caller pid =>
    cases hd : emergencyWithdraw s caller pid with
    | error e => simp [step, hd, Except.map] at h
    | ok p =>
      have hs2 : p.1 = s2 := by simpa [step, hd, Except.map] using h
      obtain ⟨hst, hdep, hframe, hopid, hoq, hnext⟩ :=
        emergencyWithdraw_ok_shape hd
      rw [← hs2]
      intro q hq
      rw [hnext] at hq
      by_cases hqp : q = pid
      · subst hqp
        rw [hdep, hopid]
        exact ⟨(hk q hq).1, rfl⟩
      · rw [hframe q hqp, hoq q hqp]
        exact hk q hq
  | setHubVault caller addr =>
    simp only [step, setHubVault] at h
    split at h
    · exact absurd h (by simp)
    · rw [← Except.ok.inj h]
      exact hk
  | setMessenger caller addr =>
    simp only [step, setMessenger] at h
    split at h
    · exact absurd h (by simp)
    · rw [← Except.ok.inj h]
      exact hk
  | setProtocolFee caller bps =>
    simp only [step, setProtocolFee] at h
    split at h
    · exact absurd h (by simp)
    · split at h
      · exact absurd h (by simp)
      · rw [← Except.ok.inj h]
        exact hk
  | setFeeRecipient caller addr =>
    simp only [step, setFeeRecipient] at h
    split at h
    · exact absurd h (by simp)
    · split at h
      · exact absurd h (by simp)
      · rw [← Except.ok.inj h]
        exact hk

lemma keysFresh_reachable {s : VaultState} (h : Reachable s) : KeysFresh s := by
  induction h with
  | init o f t => intro pid _; exact ⟨rfl, rfl⟩
  | step op _ hstep ih => exact keysFresh_step op ih hstep

/-- Claim C6: on any reachable vault state, a successful external call
moves every existing deposit record's status only along
PENDING→SENT→CONFIRMED→SETTLED→WITHDRAWN or the emergency bypass
PENDING→WITHDRAWN (or leaves it unchanged); and each transition function
checks strict equality against its required source status, rejecting an
(authorized) call from any other status with `InvalidStatus` — a revert
leaves the record untouched. -/
theorem c6_forward_only :
    ∀ (s s2 : VaultState) (op : VaultOp), Reachable s →
      step s op = .ok s2 → ForwardOnlyConcl s s2 := by
  intro s s2 op hreach h
  have hk := keysFresh_reachable hreach
  refine ⟨?_, ?_, ?_, ?_, ?_, ?_⟩
  · intro pid hpid
    have hlt : pid < s.nftNextId := by
      by_contra hge
      exact hpid (hk pid (by omega)).1
    cases op with
    | deposit caller token amount =>
      cases hd : deposit s caller token amount with
      | error e => simp [step, hd, Except.map] at h
      | ok p =>
        have hs2 : p.1 = s2 := by simpa [step, hd, Except.map] using h
        obtain ⟨hpid2, hnext, hframe⟩ := deposit_ok_frame hd
        rw [← hs2, (hframe pid (by omega)).1]
        exact forwardEdge_refl _
    | sendToHub caller pid2 =>
      simp only [step, sendToHub] at h
      split at h
      · exact absurd h (by simp)
      · obtain ⟨hst, hdep, hframe, _, _⟩ := sendToHubCore_ok_shape h
        by_cases hqp : pid = pid2
        · subst hqp
          rw [hst, hdep]
          exact (by decide : forwardEdge DepositStatus.pending DepositStatus.sent = true)
        · rw [hframe pid hqp]
          exact forwardEdge_refl _
    | confirmDeposit caller pid2 hubPid =>
      obtain ⟨hst, hdep, hframe, _, _⟩ := confirmDeposit_ok_shape h
      by_cases hqp : pid = pid2
      · subst hqp
        rw [hst, hdep]
        exact (by decide : forwardEdge DepositStatus.sent DepositStatus.confirmed = true)
      · rw [hframe pid hqp]
        exact forwardEdge_refl _
    | receiveSettlement caller pid2 principal yieldAmount =>
      obtain ⟨hst, hdep, hframe, _, _⟩ := receiveSettlement_ok_shape h
      by_cases hqp : pid = pid2
      · subst hqp
        rw [hst, hdep]
        exact (by decide : forwardEdge DepositStatus.confirmed DepositStatus.settled = true)
      · rw [hframe pid hqp]
        exact forwardEdge_refl _
    | withdraw caller pid2 =>
      cases hd : withdraw s caller pid2 with
      | error e => simp [step, hd, Except.map] at h
      | ok p =>
        have hs2 : p.1 = s2 := by simpa [step, hd, Except.map] using h
        obtain ⟨hst, hdep, hframe, _, _, _⟩ := withdraw_ok_shape hd
        rw [← hs2]
        by_cases hqp : pid = pid2
        · subst hqp
          rw [hst, hdep]
          exact (by decide : forwardEdge DepositStatus.settled DepositStatus.withdrawn = true)
        · rw [hframe pid hqp]
          exact forwardEdge_refl _
    | emergencyWithdraw caller pid2 =>
      cases hd : emergencyWithdraw s caller pid2 with
      | error e => simp [step, hd, Except.map] at h
      | ok p =>
        have hs2 : p.1 = s2 := by simpa [step, hd, Except.map] using h
        obtain ⟨hst, hdep, hframe, _, _, _⟩ := emergencyWithdraw_ok_shape hd
        rw [← hs2]
        by_cases hqp : pid = pid2
        · subst hqp
          rw [hst, hdep]
          exact (by decide : forwardEdge DepositStatus.pending DepositStatus.withdrawn = true)
        · rw [hframe pid hqp]
          exact forwardEdge_refl _
    | setHubVault caller addr =>
      simp only [step, setHubVault] at h
      split at h
      · exact absurd h (by simp)
      · rw [← Except.ok.inj h]
        exact forwardEdge_refl _
    | setMessenger caller addr =>
      simp only [step, setMessenger] at h
      split at h
      · exact absurd h (by simp)
      · rw [← Except.ok.inj h]
        exact forwardEdge_refl _
    | setProtocolFee caller bps =>
      simp only [step, setProtocolFee] at h
      split at h
      · exact absurd h (by simp)
      · split at h
        · exact absurd h (by simp)
        · rw [← Except.ok.inj h]
          exact forwardEdge_refl _
    | setFeeRecipient caller addr =>
      simp only [step, setFeeRecipient] at h
      split at h
      · exact absurd h (by simp)
      · split at h
        · exact absurd h (by simp)
        · rw [← Except.ok.inj h]
          exact forwardEdge_refl _
  · intro t pid hst
    simp only [sendToHubCore]
    rw [if_pos hst]
  · intro t caller pid hubPid hauth hst
    simp only [confirmDeposit]
    rw [if_neg (not_not_intro hauth), if_pos hst]
  · intro t caller pid principal yieldAmount hauth hst
    simp only [receiveSettlement]
    rw [if_neg (not_not_intro hauth), if_pos hst]
  · intro t caller pid hown hst
    simp only [withdraw]
    rw [if_neg (not_not_intro hown), if_pos hst]
  · intro t caller pid hown hst
    simp only [emergencyWithdraw]
    rw [if_neg (not_not_intro hown), if_pos hst]

/-- Witness for C6 at a concrete reachable state and successful call. -/
theorem c6_witness :
    ForwardOnlyConcl (initState 9 8 77)
      { initState 9 8 77 with protocolFeeBps := 200 } :=
  c6_forward_only (initState 9 8 77)
    { initState 9 8 77 with protocolFeeBps := 200 }
    (VaultOp.setProtocolFee 9 200) (Reachable.init 9 8 77) rfl

end Vault
